import Mathlib

/-!
Verification of the discord-comfyui core against its specification.

The development shallowly embeds the two core components:
* `ComfyUIClient.track_progress` / `extract_filename` (src/discord_comfyui/comfyui.py):
  the execution-tracking state machine over the websocket frame stream, and
* `WorkflowTemplate` (src/discord_comfyui/workflow_template.py):
  graph validation and path-based node access (`_get_node_value`,
  `_set_node_value`, `_validate_workflow`, `update_prompts`).

Python values that flow through these functions are JSON-shaped (they come
from `json.loads` or from JSON workflow files), so they are modelled by the
`Json` inductive below.  Python exceptions are modelled by the `PyError`
inductive, and fallible code returns `Except PyError _`.  Dictionaries are
association lists with unique keys (the shape `json.loads` produces);
iteration order of a dict is the list order.
-/

/-- JSON-shaped Python values (output of `json.loads` / content of workflow files). -/
inductive Json where
  | null : Json
  | bool : Bool → Json
  | num : Int → Json
  | str : String → Json
  | arr : List Json → Json
  | obj : List (String × Json) → Json

/-- Python exception kinds raised by the embedded code.  `valueError` carries
the exception message, which the workflow code uses to distinguish failure
causes. -/
inductive PyError where
  | keyError : PyError
  | indexError : PyError
  | typeError : PyError
  | attributeError : PyError
  | structError : PyError
  | runtimeError : PyError
  | valueError : String → PyError
deriving DecidableEq

/-- First-match association-list lookup (Python dict lookup; keys are unique). -/
def lookupStr {α : Type} : List (String × α) → String → Option α
  | [], _ => none
  | (k, v) :: rest, key => if k = key then some v else lookupStr rest key

/-- Python dict assignment `d[k] = v`: replace the binding if present, else append. -/
def objSet : List (String × Json) → String → Json → List (String × Json)
  | [], key, v => [(key, v)]
  | (k, w) :: rest, key, v =>
      if k = key then (key, v) :: rest else (k, w) :: objSet rest key v

/-- Python `j == s` where `s` is a `str`: true only for an equal string. -/
def Json.eqStr : Json → String → Bool
  | .str s, t => decide (s = t)
  | _, _ => false

/-- Python subscript `j[k]` with a string key `k`:
dict lookup (KeyError when absent); TypeError on every other value
(string and list subscripts require integers). -/
def pyGetItemStr (j : Json) (k : String) : Except PyError Json :=
  match j with
  | .obj kvs =>
      match lookupStr kvs k with
      | some v => .ok v
      | none => .error .keyError
  | _ => .error .typeError

/-- Python subscript `j[i]` with a non-negative integer `i`:
list indexing (IndexError out of range); string indexing yields a one-character
string (IndexError out of range); dict lookup with an integer key is KeyError
(JSON-decoded dicts have string keys); TypeError otherwise. -/
def pyGetItemNat (j : Json) (i : Nat) : Except PyError Json :=
  match j with
  | .arr xs =>
      match xs[i]? with
      | some v => .ok v
      | none => .error .indexError
  | .str s =>
      match s.data[i]? with
      | some c => .ok (.str (String.mk [c]))
      | none => .error .indexError
  | .obj _ => .error .keyError
  | _ => .error .typeError

/-- Python membership test `needle in hay` for a string `needle`:
substring test on strings, element test on lists, key test on dicts,
TypeError on non-containers. -/
def pyIn (needle : String) (hay : Json) : Except PyError Bool :=
  match hay with
  | .str s => .ok (decide (needle.toList <:+: s.toList))
  | .arr xs => .ok (xs.any fun x => x.eqStr needle)
  | .obj kvs => .ok (kvs.any fun kv => decide (kv.1 = needle))
  | _ => .error .typeError

/-- Python `j.get(k, d)`: only dicts have `.get`; AttributeError otherwise. -/
def pyGetAttrD (j : Json) (k : String) (d : Json) : Except PyError Json :=
  match j with
  | .obj kvs => .ok ((lookupStr kvs k).getD d)
  | _ => .error .attributeError

/-- Spec-side partial lookup: the value of key `k` when `j` is a mapping holding it. -/
def Json.getKey? : Json → String → Option Json
  | .obj kvs, k => lookupStr kvs k
  | _, _ => none

/-- Spec-side partial index: element `i` when `j` is an array long enough. -/
def Json.getIdx? : Json → Nat → Option Json
  | .arr xs, i => xs[i]?
  | _, _ => none

/-! ## ComfyUIClient.extract_filename (comfyui.py lines 173-186) -/

/-- The subscript chain `data["data"]["output"]["images"][0]["filename"]`
exactly as `extract_filename` performs it, with Python exception semantics. -/
def extractChain (data : Json) : Except PyError Json := do
  let a ← pyGetItemStr data "data"
  let b ← pyGetItemStr a "output"
  let c ← pyGetItemStr b "images"
  let d ← pyGetItemNat c 0
  pyGetItemStr d "filename"

/-- Embeds `ComfyUIClient.extract_filename`: the chain above inside
`try: ... except (KeyError, IndexError, TypeError): return ""`.
The chain can only raise those three exception kinds (see
`extractChain_error_catchable`), so the catch-all here matches the source. -/
def extract_filename (data : Json) : Json :=
  match extractChain data with
  | .ok v => v
  | .error _ => .str ""

/-- The spec-side path `outputs.images[0].filename` into the event
(the event payload the spec calls `outputs` is the `output` member of the
frame's `data` member), resolving only through mappings and arrays. -/
def outputsFilename? (data : Json) : Option Json :=
  ((((data.getKey? "data").bind fun x => x.getKey? "output").bind fun x =>
      x.getKey? "images").bind fun x => x.getIdx? 0).bind fun x =>
    x.getKey? "filename"

/-- Case split on the first stage of an `Except` bind: the whole bind is the
error of the first stage, or the continuation ran on its value. -/
theorem pyBindSplit {β α : Type} (k : α → Except PyError β)
    (act : Except PyError α) (res : Except PyError β)
    (hres : act >>= k = res) :
    (∃ e, act = .error e ∧ res = .error e) ∨
    ∃ mid, act = .ok mid ∧ k mid = res := by
  subst hres
  cases act with
  | error e => exact Or.inl ⟨e, rfl, rfl⟩
  | ok mid => exact Or.inr ⟨mid, rfl, rfl⟩

/-- Decompose a failing `Except` bind: either the first stage failed or it
succeeded and the continuation failed. -/
theorem except_bind_error {β α : Type} (x : Except PyError α)
    (f : α → Except PyError β) (e : PyError)
    (h : (x >>= f) = .error e) :
    x = .error e ∨ ∃ a, x = .ok a ∧ f a = .error e := by
  rcases pyBindSplit f x _ h with ⟨e₀, hx, he⟩ | ⟨mid, hx, hk⟩
  · cases he
    exact Or.inl hx
  · exact Or.inr ⟨mid, hx, hk⟩

/-- Lemma: `pyGetItemStr` can only fail with KeyError or TypeError. -/
theorem pyGetItemStr_error (j : Json) (k : String) (e : PyError)
    (h : pyGetItemStr j k = .error e) :
    e = .keyError ∨ e = .typeError := by
  cases j <;> simp [pyGetItemStr] at h <;> try simp [h]
  case obj kvs => cases hv : lookupStr kvs k <;> simp [hv] at h <;> simp [h]

/-- Lemma: `pyGetItemNat` can only fail with KeyError, IndexError or TypeError. -/
theorem pyGetItemNat_error (j : Json) (i : Nat) (e : PyError)
    (h : pyGetItemNat j i = .error e) :
    e = .keyError ∨ e = .indexError ∨ e = .typeError := by
  cases j <;> simp [pyGetItemNat] at h <;> try simp [h]
  case arr xs => cases hv : xs[i]? <;> simp [hv] at h <;> simp [h]
  case str s => cases hv : s.data[i]? <;> simp [hv] at h <;> simp [h]

/-- Every failure of the extraction chain is one of the three exception kinds
caught in `extract_filename`. -/
theorem extractChain_error_catchable (data : Json) (e : PyError)
    (h : extractChain data = .error e) :
    e = .keyError ∨ e = .indexError ∨ e = .typeError := by
  unfold extractChain at h
  rcases except_bind_error _ _ _ h with h1 | ⟨a, _, h⟩
  · rcases pyGetItemStr_error _ _ _ h1 with h' | h' <;> simp [h']
  rcases except_bind_error _ _ _ h with h1 | ⟨b, _, h⟩
  · rcases pyGetItemStr_error _ _ _ h1 with h' | h' <;> simp [h']
  rcases except_bind_error _ _ _ h with h1 | ⟨c, _, h⟩
  · rcases pyGetItemStr_error _ _ _ h1 with h' | h' <;> simp [h']
  rcases except_bind_error _ _ _ h with h1 | ⟨d, _, h⟩
  · exact pyGetItemNat_error _ _ _ h1
  rcases pyGetItemStr_error _ _ _ h with h' | h' <;> simp [h']

/-! ## ComfyUIClient.track_progress (comfyui.py lines 188-259)

The websocket delivers frames that are either UTF-8 text (already decoded
here to the `Json` value `json.loads` produces) or raw bytes.  The loop body
of `track_progress` is embedded as `step`; the whole loop, driven over a
finite list of received frames, as `trackRun`.  A finite frame list models a
prefix of the stream: exhausting it leaves the coroutine suspended in
`recv()` (`TrackResult.pending`), an uncaught exception aborts the call
(`TrackResult.failed`), and `break` returns the recorded filename
(`TrackResult.done`). -/

/-- One received websocket frame. -/
inductive Frame where
  | text : Json → Frame
  | binary : List Nat → Frame

/-- One invocation of the caller-supplied `callback`: either the decoded text
frame, or the dict built for a binary preview image
(`{type: preview_image, data: {format, image_data}}`). -/
inductive ObserverEvent where
  | textEvent : Json → ObserverEvent
  | previewEvent : String → List Nat → ObserverEvent

/-- Result of one loop iteration: keep looping with the (possibly updated)
recorded filename, `break` out of the loop, or raise.  Each carries the
callback invocations the iteration performed. -/
inductive StepResult where
  | cont : Json → List ObserverEvent → StepResult
  | broke : Json → List ObserverEvent → StepResult
  | failed : List ObserverEvent → StepResult

/-- Big-endian unsigned interpretation of a byte list. -/
def beU32 (bs : List Nat) : Nat :=
  bs.foldl (fun a b => a * 256 + b) 0

/-- Embeds `struct.unpack(">I", bs)`: requires exactly 4 bytes (struct.error
otherwise). -/
def structUnpackBEu32 (bs : List Nat) : Except PyError Nat :=
  if bs.length = 4 then .ok (beU32 bs) else .error .structError

/-- The body of the `while True` loop in `track_progress`, for one frame.
`promptId` is the tracked prompt id, `cb` records whether a callback was
supplied, `filename` is the current `image_filename` local. -/
def step (promptId : String) (cb : Bool) (filename : Json) : Frame → StepResult
  | .text data =>
    -- callback(data) runs before the type dispatch
    let out := if cb then [ObserverEvent.textEvent data] else []
    match pyGetItemStr data "type" with
    | .error _ => .failed out
    | .ok t =>
      if t.eqStr "progress" then
        .cont filename out
      else if t.eqStr "executed" then
        .cont (extract_filename data) out
      else if t.eqStr "executing" then
        match pyGetItemStr data "data" with
        | .error _ => .failed out
        | .ok dd =>
          match pyGetItemStr dd "node" with
          | .error _ => .failed out
          | .ok node =>
            match node with
            | .null =>  -- `data["data"]["node"] is None`
              match pyGetItemStr dd "prompt_id" with
              | .error _ => .failed out
              | .ok pid =>
                if pid.eqStr promptId then .broke filename out
                else .cont filename out
            | _ => .cont filename out
      else
        .cont filename out
  | .binary bs =>
    match structUnpackBEu32 (bs.take 4) with
    | .error _ => .failed []
    | .ok eventType =>
      if eventType = 1 then
        match structUnpackBEu32 ((bs.drop 4).take 4) with
        | .error _ => .failed []
        | .ok imageFormat =>
          let formatName := if imageFormat = 1 then "JPEG" else "PNG"
          .cont filename
            (if cb then [ObserverEvent.previewEvent formatName (bs.drop 8)] else [])
      else
        .cont filename []

/-- Outcome of driving `track_progress` over a finite prefix of the stream. -/
inductive TrackResult where
  | done : Json → List ObserverEvent → TrackResult
  | failed : List ObserverEvent → TrackResult
  | pending : Json → List ObserverEvent → TrackResult

/-- Whether the run has returned (reached the `break`). -/
def TrackResult.isDone : TrackResult → Bool
  | .done _ _ => true
  | _ => false

/-- The frame loop of `track_progress`. -/
def trackRun (promptId : String) (cb : Bool) (filename : Json) :
    List Frame → TrackResult
  | [] => .pending filename []
  | f :: fs =>
    match step promptId cb filename f with
    | .failed out => .failed out
    | .broke fn out => .done fn out
    | .cont fn out =>
      match trackRun promptId cb fn fs with
      | .pending fn' out' => .pending fn' (out ++ out')
      | .done fn' out' => .done fn' (out ++ out')
      | .failed out' => .failed (out ++ out')

/-- Embeds `ComfyUIClient.track_progress` once the connection check has passed:
`image_filename` starts as the empty string. -/
def track_progress (promptId : String) (cb : Bool) (frames : List Frame) :
    TrackResult :=
  trackRun promptId cb (.str "") frames

/-- The client-connection state of `ComfyUIClient`: whether `self.websocket`
currently holds a connection (it is `None` after construction and after
`close`). -/
structure ClientState where
  websocket : Bool

/-- Embeds `ComfyUIClient.close`: drops the websocket handle (idempotent). -/
def ComfyUIClient.close (c : ClientState) : ClientState :=
  { c with websocket := false }

/-- Embeds `ComfyUIClient.track_progress` including its connection guard
(`if not self.websocket: raise RuntimeError(...)`), returning the call result
together with the (unchanged) client state. -/
def track_entry (c : ClientState) (promptId : String) (cb : Bool)
    (frames : List Frame) : Except PyError TrackResult × ClientState :=
  if c.websocket then (.ok (track_progress promptId cb frames), c)
  else (.error .runtimeError, c)

/-! ## Bridging lemmas between the Python item access and the spec-side paths -/

/-- Decompose a successful `Except` bind. -/
theorem except_bind_ok {β α : Type} (x : Except PyError α)
    (f : α → Except PyError β) (b : β)
    (h : (x >>= f) = .ok b) :
    ∃ a, x = .ok a ∧ f a = .ok b := by
  rcases pyBindSplit f x _ h with ⟨e₀, _, he⟩ | hmid
  · cases he
  · exact hmid

/-- String-keyed subscripting succeeds exactly on a mapping holding the key. -/
theorem pyGetItemStr_ok_iff (j : Json) (k : String) (v : Json) :
    pyGetItemStr j k = .ok v ↔ j.getKey? k = some v := by
  cases j <;> simp [pyGetItemStr, Json.getKey?]
  case obj kvs => cases hv : lookupStr kvs k <;> simp [hv]

/-- A successful integer subscript is either a genuine array element or a
one-character string sliced out of a string. -/
theorem pyGetItemNat_ok_cases (j : Json) (i : Nat) (v : Json)
    (h : pyGetItemNat j i = .ok v) :
    j.getIdx? i = some v ∨ ∃ c : Char, v = .str (String.mk [c]) := by
  cases j <;> simp [pyGetItemNat, Json.getIdx?] at h ⊢
  case arr xs => cases hv : xs[i]? <;> simp [hv] at h; simp [h]
  case str s =>
    cases hv : s.data[i]? <;> simp [hv] at h
    exact ⟨_, h.symm⟩

/-- A resolving spec-side index is a successful Python index. -/
theorem pyGetItemNat_of_getIdx? (j : Json) (i : Nat) (v : Json)
    (h : j.getIdx? i = some v) : pyGetItemNat j i = .ok v := by
  cases j with
  | arr xs =>
    simp only [Json.getIdx?] at h
    simp [pyGetItemNat, h]
  | null => exact absurd h (by simp [Json.getIdx?])
  | bool b => exact absurd h (by simp [Json.getIdx?])
  | num n => exact absurd h (by simp [Json.getIdx?])
  | str s => exact absurd h (by simp [Json.getIdx?])
  | obj kvs => exact absurd h (by simp [Json.getIdx?])

/-- The exception-based extraction chain succeeds exactly where the spec-side
path `outputs.images[0].filename` resolves, with the same value. -/
theorem extractChain_ok_iff (data : Json) (v : Json) :
    extractChain data = .ok v ↔ outputsFilename? data = some v := by
  constructor
  · intro h
    unfold extractChain at h
    obtain ⟨a, ha, h⟩ := except_bind_ok _ _ _ h
    obtain ⟨b, hb, h⟩ := except_bind_ok _ _ _ h
    obtain ⟨c, hc, h⟩ := except_bind_ok _ _ _ h
    obtain ⟨d, hd, h⟩ := except_bind_ok _ _ _ h
    rw [pyGetItemStr_ok_iff] at ha hb hc h
    rcases pyGetItemNat_ok_cases _ _ _ hd with hd' | ⟨ch, rfl⟩
    · unfold outputsFilename?
      rw [ha]; simp only [Option.some_bind]
      rw [hb]; simp only [Option.some_bind]
      rw [hc]; simp only [Option.some_bind]
      rw [hd']; simpa using h
    · simp [Json.getKey?] at h
  · intro h
    unfold outputsFilename? at h
    cases ha : data.getKey? "data" with
    | none => rw [ha] at h; simp at h
    | some a =>
      rw [ha] at h; simp only [Option.some_bind] at h
      cases hb : a.getKey? "output" with
      | none => rw [hb] at h; simp at h
      | some b =>
        rw [hb] at h; simp only [Option.some_bind] at h
        cases hc : b.getKey? "images" with
        | none => rw [hc] at h; simp at h
        | some c =>
          rw [hc] at h; simp only [Option.some_bind] at h
          cases hd : c.getIdx? 0 with
          | none => rw [hd] at h; simp at h
          | some d =>
            rw [hd] at h; simp only [Option.some_bind] at h
            have ha' := (pyGetItemStr_ok_iff _ _ _).mpr ha
            have hb' := (pyGetItemStr_ok_iff _ _ _).mpr hb
            have hc' := (pyGetItemStr_ok_iff _ _ _).mpr hc
            have hd' := pyGetItemNat_of_getIdx? _ _ _ hd
            have h' := (pyGetItemStr_ok_iff _ _ _).mpr h
            simp [extractChain, ha', hb', hc', hd', h', bind, Except.bind]

/-- When the spec-side path does not resolve, the exception chain fails. -/
theorem extractChain_none_error (data : Json)
    (h : outputsFilename? data = none) :
    ∃ e, extractChain data = .error e := by
  cases hx : extractChain data with
  | ok v => rw [extractChain_ok_iff] at hx; rw [hx] at h; cases h
  | error e => exact ⟨e, rfl⟩

/-! ## Frame classification helpers used by the claim statements -/

/-- The decoded `executed` events among the frames: a text frame whose `type`
member is the string `executed` (the only frames that update the recorded
filename). -/
def executedData? : Frame → Option Json
  | .text d =>
    match d.getKey? "type" with
    | some (.str t) => if t = "executed" then some d else none
    | _ => none
  | .binary _ => none

/-- The filename recorded after consuming `frames` without terminating,
starting from `fn`: the extraction of the last `executed` event, or `fn` if
there is none. -/
def recordedAfter (fn : Json) (frames : List Frame) : Json :=
  frames.foldl
    (fun acc f =>
      match executedData? f with
      | some d => extract_filename d
      | none => acc)
    fn

/-- The one frame shape that makes `track_progress` return: a text frame of
type `executing` whose `data.node` is null and whose `data.prompt_id` equals
the tracked prompt id. -/
def isTerminalFrame (P : String) : Frame → Bool
  | .text d =>
    (match d.getKey? "type" with
     | some (.str t) => decide (t = "executing")
     | _ => false) &&
    (match d.getKey? "data" with
     | some dd =>
       (match dd.getKey? "node" with
        | some .null =>
          (match dd.getKey? "prompt_id" with
           | some (.str pid) => decide (pid = P)
           | _ => false)
        | _ => false)
     | none => false)
  | .binary _ => false

/-- Lemma: `Json.eqStr` is equality with the corresponding string value. -/
theorem eqStr_true_iff (j : Json) (s : String) :
    j.eqStr s = true ↔ j = .str s := by
  cases j <;> simp [Json.eqStr]

/-- A loop iteration that keeps looping updates the recorded filename exactly
on `executed` events: to the extraction result there, and otherwise leaves it
unchanged. -/
theorem step_cont_filename (P : String) (cb : Bool) (fn : Json) (f : Frame)
    (fn₂ : Json) (out : List ObserverEvent)
    (h : step P cb fn f = .cont fn₂ out) :
    fn₂ = match executedData? f with
          | some d => extract_filename d
          | none => fn := by
  cases f with
  | binary bs =>
    simp only [step] at h
    cases hu : structUnpackBEu32 (bs.take 4) with
    | error e => simp only [hu] at h; cases h
    | ok et =>
      simp only [hu] at h
      by_cases het : et = 1
      · rw [if_pos het] at h
        cases hu2 : structUnpackBEu32 ((bs.drop 4).take 4) with
        | error e => simp only [hu2] at h; cases h
        | ok fmt =>
          simp only [hu2] at h
          cases h
          simp [executedData?]
      · rw [if_neg het] at h
        cases h
        simp [executedData?]
  | text d =>
    simp only [step] at h
    cases hty : pyGetItemStr d "type" with
    | error e => simp only [hty] at h; cases h
    | ok t =>
      simp only [hty] at h
      have hty' := (pyGetItemStr_ok_iff _ _ _).mp hty
      by_cases hp : t.eqStr "progress" = true
      · rw [if_pos hp] at h
        rw [eqStr_true_iff] at hp
        cases h
        simp [executedData?, hty', hp]
      rw [if_neg hp] at h
      by_cases he : t.eqStr "executed" = true
      · rw [if_pos he] at h
        rw [eqStr_true_iff] at he
        cases h
        simp [executedData?, hty', he]
      rw [if_neg he] at h
      have hnone : executedData? (.text d) = none := by
        simp only [executedData?]
        rw [hty']
        cases t with
        | str s =>
          have hs : ¬ s = "executed" := fun hs => he (by simp [eqStr_true_iff, hs])
          simp [hs]
        | null => rfl
        | bool b => rfl
        | num n => rfl
        | arr xs => rfl
        | obj kvs => rfl
      rw [hnone]
      by_cases hx : t.eqStr "executing" = true
      · rw [if_pos hx] at h
        cases hdd : pyGetItemStr d "data" with
        | error e => simp only [hdd] at h; cases h
        | ok dd =>
          simp only [hdd] at h
          cases hnd : pyGetItemStr dd "node" with
          | error e => simp only [hnd] at h; cases h
          | ok node =>
            simp only [hnd] at h
            cases node with
            | null =>
              cases hpi : pyGetItemStr dd "prompt_id" with
              | error e => simp only [hpi] at h; cases h
              | ok pid =>
                simp only [hpi] at h
                by_cases hq : pid.eqStr P = true
                · rw [if_pos hq] at h; cases h
                · rw [if_neg hq] at h; cases h; rfl
            | bool b => cases h; rfl
            | num n => cases h; rfl
            | str s => cases h; rfl
            | arr xs => cases h; rfl
            | obj kvs => cases h; rfl
      · rw [if_neg hx] at h
        cases h
        rfl

/-- A loop iteration can `break` only on a terminal frame: text, of type
`executing`, with a null `node` and the tracked `prompt_id`. -/
theorem step_broke_terminal (P : String) (cb : Bool) (fn : Json) (f : Frame)
    (fn₂ : Json) (out : List ObserverEvent)
    (h : step P cb fn f = .broke fn₂ out) :
    isTerminalFrame P f = true := by
  cases f with
  | binary bs =>
    simp only [step] at h
    cases hu : structUnpackBEu32 (bs.take 4) with
    | error e => simp only [hu] at h; cases h
    | ok et =>
      simp only [hu] at h
      by_cases het : et = 1
      · rw [if_pos het] at h
        cases hu2 : structUnpackBEu32 ((bs.drop 4).take 4) with
        | error e => simp only [hu2] at h; cases h
        | ok fmt => simp only [hu2] at h; cases h
      · rw [if_neg het] at h; cases h
  | text d =>
    simp only [step] at h
    cases hty : pyGetItemStr d "type" with
    | error e => simp only [hty] at h; cases h
    | ok t =>
      simp only [hty] at h
      have hty' := (pyGetItemStr_ok_iff _ _ _).mp hty
      by_cases hp : t.eqStr "progress" = true
      · rw [if_pos hp] at h; cases h
      rw [if_neg hp] at h
      by_cases he : t.eqStr "executed" = true
      · rw [if_pos he] at h; cases h
      rw [if_neg he] at h
      by_cases hx : t.eqStr "executing" = true
      · rw [if_pos hx] at h
        rw [eqStr_true_iff] at hx
        subst hx
        cases hdd : pyGetItemStr d "data" with
        | error e => simp only [hdd] at h; cases h
        | ok dd =>
          simp only [hdd] at h
          cases hnd : pyGetItemStr dd "node" with
          | error e => simp only [hnd] at h; cases h
          | ok node =>
            simp only [hnd] at h
            cases node with
            | null =>
              cases hpi : pyGetItemStr dd "prompt_id" with
              | error e => simp only [hpi] at h; cases h
              | ok pid =>
                simp only [hpi] at h
                by_cases hq : pid.eqStr P = true
                · rw [eqStr_true_iff] at hq
                  subst hq
                  rw [pyGetItemStr_ok_iff] at hty hdd hnd hpi
                  simp [isTerminalFrame, hty, hdd, hnd, hpi]
                · rw [if_neg hq] at h; cases h
            | bool b => cases h
            | num n => cases h
            | str s => cases h
            | arr xs => cases h
            | obj kvs => cases h
      · rw [if_neg hx] at h; cases h

/-- Over any prefix consumed without returning or raising, the recorded
filename is the extraction of the last `executed` event (or the starting
value when none arrived). -/
theorem trackRun_pending_filename (P : String) (cb : Bool) (fn : Json)
    (frames : List Frame) (fn' : Json) (out : List ObserverEvent)
    (h : trackRun P cb fn frames = .pending fn' out) :
    fn' = recordedAfter fn frames := by
  induction frames generalizing fn out with
  | nil =>
    simp only [trackRun] at h
    cases h
    rfl
  | cons f fs ih =>
    simp only [trackRun] at h
    cases hstep : step P cb fn f with
    | failed out₂ => simp only [hstep] at h; cases h
    | broke fn₂ out₂ => simp only [hstep] at h; cases h
    | cont fn₂ out₂ =>
      simp only [hstep] at h
      have hfn₂ := step_cont_filename _ _ _ _ _ _ hstep
      cases hrec : trackRun P cb fn₂ fs with
      | pending fn₃ out₃ =>
        simp only [hrec] at h
        cases h
        have := ih fn₂ out₃ hrec
        simp only [recordedAfter, List.foldl_cons]
        rw [← hfn₂]
        exact this
      | done fn₃ out₃ => simp only [hrec] at h; cases h
      | failed out₃ => simp only [hrec] at h; cases h

/-- C9: the loop can only return after a terminal frame. -/
theorem trackRun_done_not_without_terminal (P : String) (cb : Bool) (fn : Json)
    (frames : List Frame)
    (h : frames.all (fun f => ! isTerminalFrame P f) = true) :
    (trackRun P cb fn frames).isDone = false := by
  induction frames generalizing fn with
  | nil => rfl
  | cons f fs ih =>
    simp only [List.all_cons, Bool.and_eq_true, Bool.not_eq_true'] at h
    obtain ⟨h1, h2⟩ := h
    simp only [trackRun]
    cases hstep : step P cb fn f with
    | failed out₂ => rfl
    | broke fn₂ out₂ =>
      have := step_broke_terminal _ _ _ _ _ _ hstep
      rw [this] at h1
      cases h1
    | cont fn₂ out₂ =>
      have hrest := ih fn₂ (by simpa [List.all_eq_true] using h2)
      cases hrec : trackRun P cb fn₂ fs with
      | pending fn₃ out₃ => simp [hrec, TrackResult.isDone]
      | done fn₃ out₃ => rw [hrec] at hrest; cases hrest
      | failed out₃ => simp [hrec, TrackResult.isDone]

/-! ## Concrete frames for the specified event sequence -/

/-- A decoded `progress` text frame. -/
def progressFrame (v m : Int) : Frame :=
  .text (.obj [("type", .str "progress"),
               ("data", .obj [("value", .num v), ("max", .num m)])])

/-- A decoded `executed` text frame carrying one output image filename. -/
def executedFrame (fname : String) : Frame :=
  .text (.obj [("type", .str "executed"),
               ("data", .obj [("output",
                 .obj [("images", .arr [.obj [("filename", .str fname)]])])])])

/-- The terminal `executing` text frame for prompt id `P`. -/
def executingDoneFrame (P : String) : Frame :=
  .text (.obj [("type", .str "executing"),
               ("data", .obj [("node", .null), ("prompt_id", .str P)])])

/-- The four-frame sequence of testable property 4 of the spec. -/
def c1Frames (P : String) : List Frame :=
  [progressFrame 5 20, progressFrame 10 20, executedFrame "out_001.png",
   executingDoneFrame P]

/-- The value `track_progress` returned, when the run reached the `break`. -/
def TrackResult.returnValue? : TrackResult → Option Json
  | .done fn _ => some fn
  | _ => none

/-- The filename recorded so far, when the run is still blocked in `recv`. -/
def TrackResult.waitingValue? : TrackResult → Option Json
  | .pending fn _ => some fn
  | _ => none

/-- C1: for every tracked prompt id `P`, the sequence Progress(5,20),
Progress(10,20), Executed(out_001.png), Executing(node=null, prompt_id=P)
makes `track_progress` return `out_001.png`; without the final Executing
frame the tracker is still blocked on the stream (it never terminates). -/
theorem track_c1_sequence (P : String) (cb : Bool) :
    (track_progress P cb (c1Frames P)).returnValue? =
      some (.str "out_001.png") ∧
    (track_progress P cb
        [progressFrame 5 20, progressFrame 10 20,
         executedFrame "out_001.png"]).waitingValue? =
      some (.str "out_001.png") := by
  cases cb <;>
    exact ⟨by simp [track_progress, trackRun, step, c1Frames, progressFrame,
      executedFrame, executingDoneFrame, pyGetItemStr, lookupStr, Json.eqStr,
      extract_filename, extractChain, pyGetItemNat, bind, Except.bind,
      TrackResult.returnValue?],
    by simp [track_progress, trackRun, step, progressFrame,
      executedFrame, pyGetItemStr, lookupStr, Json.eqStr,
      extract_filename, extractChain, pyGetItemNat, bind, Except.bind,
      TrackResult.waitingValue?]⟩

/-- C2: an `executed` text frame never aborts tracking; it always keeps the
tracker in its loop and overwrites the recorded filename with the extraction
result, which is the value at `outputs.images[0].filename` when that path
resolves and the empty string otherwise; the filename held when the loop is
still running is the extraction of the last `executed` event received. -/
theorem executed_event_extraction :
    (∀ (P : String) (cb : Bool) (fn d : Json),
        d.getKey? "type" = some (.str "executed") →
        step P cb fn (.text d) =
          .cont (extract_filename d)
            (if cb then [ObserverEvent.textEvent d] else [])) ∧
    (∀ d v, outputsFilename? d = some v → extract_filename d = v) ∧
    (∀ d, outputsFilename? d = none → extract_filename d = .str "") ∧
    (∀ (P : String) (cb : Bool) (fn : Json) (frames : List Frame)
        (fn' : Json) (out : List ObserverEvent),
        trackRun P cb fn frames = .pending fn' out →
        fn' = recordedAfter fn frames) := by
  refine ⟨?_, ?_, ?_, trackRun_pending_filename⟩
  · intro P cb fn d h
    have hty : pyGetItemStr d "type" = .ok (.str "executed") :=
      (pyGetItemStr_ok_iff _ _ _).mpr h
    simp only [step, hty]
    rfl
  · intro d v h
    unfold extract_filename
    rw [(extractChain_ok_iff d v).mpr h]
  · intro d h
    obtain ⟨e, he⟩ := extractChain_none_error d h
    unfold extract_filename
    rw [he]

/-- Witness for C2 at a concrete `executed` event. -/
theorem executed_event_extraction_witness :
    (Json.obj [("type", Json.str "executed")]).getKey? "type" =
      some (Json.str "executed") ∧
    step "w" true (Json.str "prev")
        (.text (Json.obj [("type", Json.str "executed")])) =
      .cont (extract_filename (Json.obj [("type", Json.str "executed")]))
        [ObserverEvent.textEvent (Json.obj [("type", Json.str "executed")])] :=
  ⟨rfl, executed_event_extraction.1 "w" true (Json.str "prev") _ rfl⟩

/-- C9: no frame sequence free of a terminal Executing frame (null node and
the tracked prompt id) can make `track_progress` return: the run is never
`done`, so the tracker keeps waiting (or aborts on a decode failure). -/
theorem done_requires_terminal_frame (P : String) (cb : Bool)
    (frames : List Frame)
    (h : frames.all (fun f => ! isTerminalFrame P f) = true) :
    (track_progress P cb frames).isDone = false :=
  trackRun_done_not_without_terminal P cb (.str "") frames h

/-- Witness for C9 on a short non-terminal stream. -/
theorem done_requires_terminal_frame_witness :
    (([Frame.text (Json.obj [("type", Json.str "status")]),
       progressFrame 5 20]).all (fun f => ! isTerminalFrame "abc" f) = true) ∧
    (track_progress "abc" true
      [Frame.text (Json.obj [("type", Json.str "status")]),
       progressFrame 5 20]).isDone = false :=
  ⟨rfl, done_requires_terminal_frame "abc" true _ rfl⟩

/-- C3 counterexample: a binary frame whose first four bytes decode to the
preview-image code 1 but which has no format bytes makes
`struct.unpack(">I", message[4:8])` raise struct.error, aborting the
tracking call instead of leaving it in its loop. -/
theorem preview_short_frame_aborts :
    beU32 (([0, 0, 0, 1] : List Nat).take 4) = 1 ∧
    step "p" true (Json.str "") (.binary [0, 0, 0, 1]) = .failed [] :=
  ⟨rfl, rfl⟩

/-- C3 amended: a binary frame of length at least 8 whose first four bytes
decode (big-endian) to 1 is decoded as a preview image: bytes 4..8 are the
format code (1 for JPEG, anything else PNG), the rest is the payload, the
event is forwarded to the observer when one was supplied, and the tracker
stays in its loop with its recorded filename unchanged. -/
theorem preview_frame_processing (P : String) (cb : Bool) (fn : Json)
    (bs : List Nat) (h8 : 8 ≤ bs.length)
    (htype : beU32 (bs.take 4) = 1) :
    step P cb fn (.binary bs) =
      .cont fn
        (if cb then
          [ObserverEvent.previewEvent
            (if beU32 ((bs.drop 4).take 4) = 1 then "JPEG" else "PNG")
            (bs.drop 8)]
        else []) := by
  have h4 : (bs.take 4).length = 4 := by
    simp only [List.length_take]
    omega
  have h48 : ((bs.drop 4).take 4).length = 4 := by
    simp only [List.length_take, List.length_drop]
    omega
  simp only [step, structUnpackBEu32, h4, h48, if_pos, htype]

/-- Witness for C3 (amended) on a PNG preview frame. -/
theorem preview_frame_processing_witness :
    8 ≤ ([0, 0, 0, 1, 0, 0, 0, 2, 9, 9] : List Nat).length ∧
    beU32 (([0, 0, 0, 1, 0, 0, 0, 2, 9, 9] : List Nat).take 4) = 1 ∧
    step "w" true (Json.str "")
        (.binary [0, 0, 0, 1, 0, 0, 0, 2, 9, 9]) =
      .cont (Json.str "") [ObserverEvent.previewEvent "PNG" [9, 9]] :=
  ⟨by decide, rfl,
    preview_frame_processing "w" true (Json.str "") _ (by decide) rfl⟩

/-- C10: calling `track_progress` with no open websocket (including right
after `close`, which resets the handle) raises RuntimeError before any frame
is read and leaves the client state unchanged. -/
theorem track_requires_connection (c : ClientState) (P : String) (cb : Bool)
    (frames : List Frame) :
    (c.websocket = false →
      track_entry c P cb frames = (.error .runtimeError, c)) ∧
    track_entry (ComfyUIClient.close c) P cb frames =
      (.error .runtimeError, ComfyUIClient.close c) := by
  constructor
  · intro h
    simp [track_entry, h]
  · simp [track_entry, ComfyUIClient.close]

/-- Witness for C10 on a fresh unconnected client. -/
theorem track_requires_connection_witness :
    ({ websocket := false } : ClientState).websocket = false ∧
    track_entry { websocket := false } "p" true [progressFrame 5 20] =
      (.error .runtimeError, { websocket := false }) :=
  ⟨rfl,
    (track_requires_connection { websocket := false } "p" true
      [progressFrame 5 20]).1 rfl⟩

/-! ## WorkflowTemplate (workflow_template.py)

Workflow data is the JSON-decoded workflow file: a dict from node id to node,
modelled as `List (String × Json)` in iteration order.  The node templates of
the configuration are the `NodeTemplate` dataclass. -/

/-- The `NodeTemplate` dataclass: node type, path into the node, optional
meta-title substring. -/
structure NodeTemplate where
  node_type : String
  path : List String
  match_meta : Option String

/-- The `WorkflowTemplateConfig` dataclass; `prompts` keeps dict iteration
order. -/
structure WorkflowTemplateConfig where
  model : NodeTemplate
  prompts : List (String × NodeTemplate)

/-- The message of the ValueError `_get_node_value` raises.  The Python
message interpolates the path with `repr`; the model interpolates it with
`toString`, which only affects the message text, not which error is raised. -/
def invalidPathMsg (path : List String) : String :=
  s!"Invalid path {path} for node"

/-- Embeds the loop of `WorkflowTemplate._get_node_value`, walking the remaining path `rest`;
`path` is kept whole for the error message. -/
def getNodeLoop (path : List String) : Json → List String → Except PyError Json
  | node, [] => .ok node
  | node, k :: rest => do
    let b ← pyIn k node
    if b then do
      let c ← pyGetItemStr node k
      getNodeLoop path c rest
    else
      .error (.valueError (invalidPathMsg path))

/-- Embeds `WorkflowTemplate._get_node_value(node, path)`. -/
def _get_node_value (node : Json) (path : List String) : Except PyError Json :=
  getNodeLoop path node path

/-- Python item assignment `j[k] = v` for a string key: dict update;
TypeError on lists (string index) and on immutable or non-subscriptable
values. -/
def pySetItem (j : Json) (k : String) (v : Json) : Except PyError Json :=
  match j with
  | .obj kvs => .ok (.obj (objSet kvs k v))
  | _ => .error .typeError

/-- Embeds `WorkflowTemplate._set_node_value(node, path, value)`: walks `path[:-1]`
creating `{}` at missing keys, then assigns at `path[-1]`.  The in-place
mutation of the source is modelled functionally: the updated node is
returned (workflow data is a tree, so rebuilding the walked spine is
equivalent to mutating it).  An empty path hits `path[-1]` on an empty list:
IndexError. -/
def _set_node_value (node : Json) (path : List String) (v : Json) :
    Except PyError Json :=
  match path with
  | [] => .error .indexError
  | [k] => pySetItem node k v
  | k :: rest => do
    let b ← pyIn k node
    let node₁ ← if b then pure node else pySetItem node k (.obj [])
    let child ← pyGetItemStr node₁ k
    let child' ← _set_node_value child rest v
    -- write-back of the mutated child (node₁ is a dict here, since a
    -- string-keyed getitem succeeds only on dicts)
    match node₁ with
    | .obj kvs => .ok (.obj (objSet kvs k child'))
    | _ => .error .typeError

/-- Safety of a `set` walk from the spec's "well-typed inputs": the value is a
mapping, and on every existing proper prefix of the path the walk meets only
mappings (missing keys are fine — `set` creates mappings there). -/
def setSafe : List String → Json → Bool
  | [], .obj _ => true
  | [_], .obj _ => true
  | k :: rest, .obj kvs =>
    match lookupStr kvs k with
    | none => true
    | some c => setSafe rest c
  | _, _ => false

/-- The `get` walk meets only mappings (it may still stop at an absent key). -/
def getTraversesObjs : List String → Json → Bool
  | [], _ => true
  | k :: rest, .obj kvs =>
    match lookupStr kvs k with
    | none => true
    | some c => getTraversesObjs rest c
  | _ :: _, _ => false

/-- The `get` walk reaches a non-container scalar (number, boolean, null)
while path segments remain, before any absent key. -/
def walkHitsScalar : List String → Json → Bool
  | [], _ => false
  | k :: rest, .obj kvs =>
    match lookupStr kvs k with
    | none => false
    | some c => walkHitsScalar rest c
  | _ :: _, .num _ => true
  | _ :: _, .bool _ => true
  | _ :: _, .null => true
  | _ :: _, _ => false

/-- Dict membership agrees with lookup success. -/
theorem any_eq_lookupStr_isSome (kvs : List (String × Json)) (k : String) :
    (kvs.any fun kv => decide (kv.1 = k)) = (lookupStr kvs k).isSome := by
  induction kvs with
  | nil => rfl
  | cons kv rest ih =>
    by_cases hk : kv.1 = k
    · simp [lookupStr, hk]
    · simp [lookupStr, hk, ih]

/-- After a dict assignment, looking the key up yields the assigned value. -/
theorem lookupStr_objSet_self (kvs : List (String × Json)) (k : String)
    (v : Json) : lookupStr (objSet kvs k v) k = some v := by
  induction kvs with
  | nil => simp [objSet, lookupStr]
  | cons kv rest ih =>
    by_cases hk : kv.1 = k
    · simp [objSet, hk, lookupStr]
    · simp [objSet, hk, lookupStr, ih]

/-- The full-path argument of `getNodeLoop` only shapes the error message;
success is independent of it. -/
theorem getNodeLoop_ok_msg_inv (p₀ p₁ : List String) (path : List String)
    (node v : Json) (h : getNodeLoop p₀ node path = .ok v) :
    getNodeLoop p₁ node path = .ok v := by
  induction path generalizing node with
  | nil => simpa [getNodeLoop] using h
  | cons k rest ih =>
    simp only [getNodeLoop, bind, Except.bind] at h ⊢
    cases hb : pyIn k node with
    | error e => rw [hb] at h; cases h
    | ok b =>
      rw [hb] at h
      simp only at h ⊢
      cases b with
      | false => simp at h
      | true =>
        simp only [if_pos] at h ⊢
        cases hc : pyGetItemStr node k with
        | error e => rw [hc] at h; cases h
        | ok c =>
          rw [hc] at h
          exact ih c h

/-- When the walk meets only mappings, `get` either succeeds or fails with
exactly the InvalidPath ValueError. -/
theorem getNodeLoop_traverses (p₀ : List String) (path : List String)
    (node : Json) (h : getTraversesObjs path node = true) :
    getNodeLoop p₀ node path = .error (.valueError (invalidPathMsg p₀)) ∨
    ∃ v, getNodeLoop p₀ node path = .ok v := by
  induction path generalizing node with
  | nil => exact Or.inr ⟨node, rfl⟩
  | cons k rest ih =>
    cases node with
    | obj kvs =>
      have hpy : pyIn k (Json.obj kvs) = .ok (lookupStr kvs k).isSome := by
        simp [pyIn, any_eq_lookupStr_isSome]
      cases hl : lookupStr kvs k with
      | none =>
        left
        simp [getNodeLoop, bind, Except.bind, hpy, hl]
      | some c =>
        have h' : getTraversesObjs rest c = true := by
          simpa [getTraversesObjs, hl] using h
        have hgi : pyGetItemStr (Json.obj kvs) k = .ok c := by
          simp [pyGetItemStr, hl]
        rcases ih c h' with hc | ⟨v, hv⟩
        · left
          simp [getNodeLoop, bind, Except.bind, hpy, hl, hgi, hc]
        · right
          exact ⟨v, by simp [getNodeLoop, bind, Except.bind, hpy, hl, hgi, hv]⟩
    | null => simp [getTraversesObjs] at h
    | bool b => simp [getTraversesObjs] at h
    | num n => simp [getTraversesObjs] at h
    | str s => simp [getTraversesObjs] at h
    | arr xs => simp [getTraversesObjs] at h

/-- When the walk reaches a non-container scalar with segments remaining,
`get` raises TypeError (from the `in` test), not the InvalidPath ValueError. -/
theorem getNodeLoop_scalar (p₀ : List String) (path : List String)
    (node : Json) (h : walkHitsScalar path node = true) :
    getNodeLoop p₀ node path = .error .typeError := by
  induction path generalizing node with
  | nil => simp [walkHitsScalar] at h
  | cons k rest ih =>
    cases node with
    | obj kvs =>
      cases hl : lookupStr kvs k with
      | none => simp [walkHitsScalar, hl] at h
      | some c =>
        have h' : walkHitsScalar rest c = true := by
          simpa [walkHitsScalar, hl] using h
        have hpy : pyIn k (Json.obj kvs) = .ok (lookupStr kvs k).isSome := by
          simp [pyIn, any_eq_lookupStr_isSome]
        have hgi : pyGetItemStr (Json.obj kvs) k = .ok c := by
          simp [pyGetItemStr, hl]
        simp [getNodeLoop, bind, Except.bind, hpy, hl, hgi, ih c h']
    | null => simp [getNodeLoop, bind, Except.bind, pyIn]
    | bool b => simp [getNodeLoop, bind, Except.bind, pyIn]
    | num n => simp [getNodeLoop, bind, Except.bind, pyIn]
    | str s => simp [walkHitsScalar] at h
    | arr xs => simp [walkHitsScalar] at h

/-- A fresh empty mapping is always safe to `set` into. -/
theorem setSafe_obj_nil (path : List String) :
    setSafe path (Json.obj []) = true := by
  cases path with
  | nil => rfl
  | cons k rest => cases rest <;> simp [setSafe, lookupStr]

/-- Lemma: `set` followed by `get` on a safe non-empty path stores and re-reads the
value, creating empty mappings at missing intermediate keys. -/
theorem set_then_get (p₀ : List String) (path : List String) (node v : Json)
    (hne : path ≠ []) (hs : setSafe path node = true) :
    ∃ node', _set_node_value node path v = .ok node' ∧
      getNodeLoop p₀ node' path = .ok v := by
  induction path generalizing node with
  | nil => exact absurd rfl hne
  | cons k rest ih =>
    cases node with
    | obj kvs =>
      cases rest with
      | nil =>
        refine ⟨.obj (objSet kvs k v), rfl, ?_⟩
        have hl := lookupStr_objSet_self kvs k v
        have hpy : pyIn k (Json.obj (objSet kvs k v)) =
            .ok (lookupStr (objSet kvs k v) k).isSome := by
          simp [pyIn, any_eq_lookupStr_isSome]
        simp [getNodeLoop, bind, Except.bind, hpy, hl, pyGetItemStr]
      | cons r rs =>
        have hpy : pyIn k (Json.obj kvs) = .ok (lookupStr kvs k).isSome := by
          simp [pyIn, any_eq_lookupStr_isSome]
        cases hl : lookupStr kvs k with
        | some c =>
          have hs' : setSafe (r :: rs) c = true := by
            simpa [setSafe, hl] using hs
          obtain ⟨c', hset, hget⟩ := ih c (by simp) hs'
          refine ⟨.obj (objSet kvs k c'), ?_, ?_⟩
          · simp [_set_node_value, bind, Except.bind, hpy, hl, pure,
              Except.pure, pyGetItemStr, hset]
          · have hl' := lookupStr_objSet_self kvs k c'
            have hpy' : pyIn k (Json.obj (objSet kvs k c')) =
                .ok (lookupStr (objSet kvs k c') k).isSome := by
              simp [pyIn, any_eq_lookupStr_isSome]
            simp [getNodeLoop, bind, Except.bind, hpy', hl', pyGetItemStr]
            exact hget
        | none =>
          obtain ⟨c', hset, hget⟩ :=
            ih (Json.obj []) (by simp) (setSafe_obj_nil (r :: rs))
          have hl₁ := lookupStr_objSet_self kvs k (Json.obj [])
          refine ⟨.obj (objSet (objSet kvs k (.obj [])) k c'), ?_, ?_⟩
          · simp [_set_node_value, bind, Except.bind, hpy, hl, pySetItem,
              pyGetItemStr, hl₁, hset]
          · have hl₂ := lookupStr_objSet_self (objSet kvs k (.obj [])) k c'
            have hpy' : pyIn k (Json.obj (objSet (objSet kvs k (.obj [])) k c')) =
                .ok (lookupStr (objSet (objSet kvs k (.obj [])) k c') k).isSome := by
              simp [pyIn, any_eq_lookupStr_isSome]
            simp [getNodeLoop, bind, Except.bind, hpy', hl₂, pyGetItemStr]
            exact hget
    | null => simp [setSafe] at hs
    | bool b => simp [setSafe] at hs
    | num n => simp [setSafe] at hs
    | str s => simp [setSafe] at hs
    | arr xs => simp [setSafe] at hs

/-- C5 counterexample: on the node `{"a": 5}` and path `["a","b"]` (an
existing non-mapping intermediate value), `set` raises TypeError instead of
assigning, and `get` raises TypeError, not InvalidPath. -/
theorem set_nonmapping_counterexample :
    _set_node_value (Json.obj [("a", Json.num 5)]) ["a", "b"]
        (Json.str "z") = .error .typeError ∧
    _get_node_value (Json.obj [("a", Json.num 5)]) ["a", "b"] =
      .error .typeError :=
  ⟨rfl, rfl⟩

/-- C5 amended: on a node whose existing values along the path are mappings
(`setSafe`), `set` creates missing intermediates, assigns the value, and a
subsequent `get` returns it; and when the `get` walk stays within mappings,
a failing `get` fails precisely with the InvalidPath ValueError. -/
theorem graph_set_get_roundtrip :
    (∀ (node : Json) (path : List String) (v : Json), path ≠ [] →
      setSafe path node = true →
      ∃ node', _set_node_value node path v = .ok node' ∧
        _get_node_value node' path = .ok v) ∧
    (∀ (node : Json) (path : List String),
      getTraversesObjs path node = true →
      (∀ w, _get_node_value node path ≠ .ok w) →
      _get_node_value node path = .error (.valueError (invalidPathMsg path))) := by
  constructor
  · intro node path v hne hs
    exact set_then_get path path node v hne hs
  · intro node path ht hnone
    rcases getNodeLoop_traverses path path node ht with h | ⟨w, hw⟩
    · exact h
    · exact absurd hw (hnone w)

/-- Witness for C5 (amended): a set/get round trip through a missing
intermediate key. -/
theorem graph_set_get_roundtrip_witness :
    (["inputs", "text"] : List String) ≠ [] ∧
    setSafe ["inputs", "text"] (Json.obj [("class_type", Json.str "T")]) =
      true ∧
    ∃ node',
      _set_node_value (Json.obj [("class_type", Json.str "T")])
          ["inputs", "text"] (Json.str "new") = .ok node' ∧
      _get_node_value node' ["inputs", "text"] = .ok (Json.str "new") :=
  ⟨by simp, rfl, graph_set_get_roundtrip.1 _ _ _ (by simp) rfl⟩

/-- C6 counterexample: walking into the non-mapping value `null` raises
TypeError, which is not the InvalidPath ValueError. -/
theorem get_nonmapping_counterexample :
    _get_node_value (Json.obj [("x", Json.null)]) ["x", "y"] =
      .error .typeError ∧
    (PyError.typeError ≠ PyError.valueError (invalidPathMsg ["x", "y"])) :=
  ⟨rfl, by simp⟩

/-- C6 amended: while the walk meets only mappings, `get` fails exactly with
the InvalidPath ValueError (when it fails at all); when the walk reaches a
non-container scalar (number, boolean, null) with segments left, it raises
TypeError instead. -/
theorem graph_get_error_classification :
    (∀ (node : Json) (path : List String),
      getTraversesObjs path node = true →
      _get_node_value node path =
          .error (.valueError (invalidPathMsg path)) ∨
      ∃ v, _get_node_value node path = .ok v) ∧
    (∀ (node : Json) (path : List String),
      walkHitsScalar path node = true →
      _get_node_value node path = .error .typeError) :=
  ⟨fun node path h => getNodeLoop_traverses path path node h,
   fun node path h => getNodeLoop_scalar path path node h⟩

/-- Witness for C6 (amended) at a scalar hit. -/
theorem graph_get_error_classification_witness :
    walkHitsScalar ["x", "y"] (Json.obj [("x", Json.num 7)]) = true ∧
    _get_node_value (Json.obj [("x", Json.num 7)]) ["x", "y"] =
      .error .typeError :=
  ⟨rfl, graph_get_error_classification.2 _ _ rfl⟩

/-! ## WorkflowTemplate._validate_workflow and update_prompts -/

/-- The message of the ValueError raised when the model node is missing. -/
def missingModelMsg (t : String) : String :=
  s!"Workflow missing required model node of type {t}"

/-- The message of the ValueError raised when a prompt node is missing. -/
def missingPromptMsg (name t : String) : String :=
  s!"Workflow missing required prompt node \x27{name}\x27 of type {t}"

/-- Python truthiness of the `Optional[str]` field `match_meta`
(`None` and the empty string are falsy). -/
def mmTruthy : Option String → Bool
  | some s => decide (s ≠ "")
  | none => false

/-- The model-search loop of `_validate_workflow`:
`node.get("class_type") == node_type`, first match breaks. -/
def findModel (t : String) : List (String × Json) → Except PyError Bool
  | [] => .ok false
  | (_, node) :: rest => do
    let ct ← pyGetAttrD node "class_type" Json.null
    if ct.eqStr t then .ok true else findModel t rest

/-- Whether one node satisfies a prompt-slot template, with Python exception
semantics: class type equality, then (when `match_meta` is truthy)
`match_meta in node.get("_meta", {}).get("title", "")`.  This is the exact
per-node test of both `_validate_workflow` and `update_prompts`. -/
def promptNodeMatchesE (pc : NodeTemplate) (node : Json) :
    Except PyError Bool := do
  let ct ← pyGetAttrD node "class_type" Json.null
  if ct.eqStr pc.node_type then
    if mmTruthy pc.match_meta then do
      let meta ← pyGetAttrD node "_meta" (Json.obj [])
      let title ← pyGetAttrD meta "title" (Json.str "")
      pyIn (pc.match_meta.getD "") title
    else
      pure true
  else
    pure false

/-- The prompt-search loop of `_validate_workflow` (first match breaks). -/
def findPromptNode (pc : NodeTemplate) :
    List (String × Json) → Except PyError Bool
  | [] => .ok false
  | (_, node) :: rest => do
    let m ← promptNodeMatchesE pc node
    if m then .ok true else findPromptNode pc rest

/-- The prompt-slot loop of `_validate_workflow`, raising at the first slot
with no matching node. -/
def validatePrompts (g : List (String × Json)) :
    List (String × NodeTemplate) → Except PyError Unit
  | [] => .ok ()
  | (name, pc) :: rest => do
    let f ← findPromptNode pc g
    if f then validatePrompts g rest
    else .error (.valueError (missingPromptMsg name pc.node_type))

/-- Embeds `WorkflowTemplate._validate_workflow`: model check first, then the prompt
slots in configuration order. -/
def _validate_workflow (cfg : WorkflowTemplateConfig)
    (workflow_data : List (String × Json)) : Except PyError Unit := do
  let mf ← findModel cfg.model.node_type workflow_data
  if mf then validatePrompts workflow_data cfg.prompts
  else .error (.valueError (missingModelMsg cfg.model.node_type))

/-- The inner node loop of `update_prompts` for one slot: sets the value on
EVERY matching node (the loop has no break). -/
def updateNodesE (pc : NodeTemplate) (v : Json) :
    List (String × Json) → Except PyError (List (String × Json))
  | [] => .ok []
  | (nid, node) :: rest => do
    let m ← promptNodeMatchesE pc node
    if m then do
      let node' ← _set_node_value node pc.path v
      let rest' ← updateNodesE pc v rest
      pure ((nid, node') :: rest')
    else do
      let rest' ← updateNodesE pc v rest
      pure ((nid, node) :: rest')

/-- Embeds `WorkflowTemplate.update_prompts(prompts)`: slots absent from the
configuration are skipped silently. -/
def update_prompts (cfg : WorkflowTemplateConfig) :
    List (String × Json) → List (String × String) →
    Except PyError (List (String × Json))
  | g, [] => .ok g
  | g, (name, value) :: rest =>
    match lookupStr cfg.prompts name with
    | none => update_prompts cfg g rest
    | some pc => do
      let g' ← updateNodesE pc (.str value) g
      update_prompts cfg g' rest

/-! ## Total (statement-side) versions of the node tests -/

/-- Total form of `node.get("class_type") == t` on a well-formed node. -/
def classTypeIs (t : String) (node : Json) : Bool :=
  match node with
  | .obj kvs => ((lookupStr kvs "class_type").getD Json.null).eqStr t
  | _ => false

/-- Total form of `node.get("_meta", \x7b\x7d).get("title", "")` on a well-formed node. -/
def metaTitleStr (node : Json) : String :=
  match node with
  | .obj kvs =>
    match lookupStr kvs "_meta" with
    | none => ""
    | some (.obj mkvs) =>
      match lookupStr mkvs "title" with
      | none => ""
      | some (.str s) => s
      | some _ => ""
    | some _ => ""
  | _ => ""

/-- Substring test (Python `in` on strings). -/
def substrB (needle hay : String) : Bool :=
  decide (needle.toList <:+: hay.toList)

/-- Whether a node satisfies a prompt-slot template (total form). -/
def slotMatches (pc : NodeTemplate) (node : Json) : Bool :=
  classTypeIs pc.node_type node &&
    (if mmTruthy pc.match_meta then
      substrB (pc.match_meta.getD "") (metaTitleStr node)
    else true)

/-- Well-formedness of a graph node as the data model describes it: a
mapping whose `_meta`, when present, is a mapping whose `title`, when
present, is a string.  On such nodes the Python node tests cannot raise. -/
def WFNode (node : Json) : Bool :=
  match node with
  | .obj kvs =>
    match lookupStr kvs "_meta" with
    | none => true
    | some (.obj mkvs) =>
      match lookupStr mkvs "title" with
      | none => true
      | some (.str _) => true
      | some _ => false
    | some _ => false
  | _ => false

/-- The first slot of the list with no matching node in the graph. -/
def firstUnmatchedSlot (g : List (String × Json)) :
    List (String × NodeTemplate) → Option (String × NodeTemplate)
  | [] => none
  | (name, pc) :: rest =>
    if g.any fun p => slotMatches pc p.2 then firstUnmatchedSlot g rest
    else some (name, pc)

/-- On a well-formed node the per-node slot test cannot raise and computes
`slotMatches`. -/
theorem promptNodeMatchesE_wf (pc : NodeTemplate) (node : Json)
    (hwf : WFNode node = true) :
    promptNodeMatchesE pc node = .ok (slotMatches pc node) := by
  cases node with
  | obj kvs =>
    simp only [promptNodeMatchesE, pyGetAttrD, bind, Except.bind, slotMatches,
      classTypeIs]
    by_cases hct : ((lookupStr kvs "class_type").getD Json.null).eqStr
        pc.node_type = true
    · rw [if_pos hct, hct]
      by_cases hmm : mmTruthy pc.match_meta = true
      · rw [if_pos hmm, if_pos hmm]
        cases hmeta : lookupStr kvs "_meta" with
        | none =>
          simp [pyGetAttrD, pyIn, lookupStr, metaTitleStr, hmeta, substrB]
        | some m =>
          cases m with
          | obj mkvs =>
            cases htitle : lookupStr mkvs "title" with
            | none =>
              simp [pyGetAttrD, pyIn, hmeta, htitle, metaTitleStr, substrB]
            | some tv =>
              cases tv with
              | str s =>
                simp [pyGetAttrD, pyIn, hmeta, htitle, metaTitleStr, substrB]
              | null => simp [WFNode, hmeta, htitle] at hwf
              | bool b => simp [WFNode, hmeta, htitle] at hwf
              | num n => simp [WFNode, hmeta, htitle] at hwf
              | arr xs => simp [WFNode, hmeta, htitle] at hwf
              | obj o => simp [WFNode, hmeta, htitle] at hwf
          | null => simp [WFNode, hmeta] at hwf
          | bool b => simp [WFNode, hmeta] at hwf
          | num n => simp [WFNode, hmeta] at hwf
          | str s => simp [WFNode, hmeta] at hwf
          | arr xs => simp [WFNode, hmeta] at hwf
      · rw [if_neg hmm]
        simp only [Bool.not_eq_true] at hmm
        simp [hmm, hct, pure, Except.pure]
    · rw [if_neg hct]
      simp only [Bool.not_eq_true] at hct
      simp [hct, pure, Except.pure]
  | null => simp [WFNode] at hwf
  | bool b => simp [WFNode] at hwf
  | num n => simp [WFNode] at hwf
  | str s => simp [WFNode] at hwf
  | arr xs => simp [WFNode] at hwf

/-- On a well-formed graph the model search cannot raise and computes
whether some node has the model kind. -/
theorem findModel_wf (t : String) (g : List (String × Json))
    (hwf : ∀ p ∈ g, WFNode p.2 = true) :
    findModel t g = .ok (g.any fun p => classTypeIs t p.2) := by
  induction g with
  | nil => rfl
  | cons p rest ih =>
    have hp : WFNode p.2 = true := hwf p (by simp)
    have hrest : ∀ q ∈ rest, WFNode q.2 = true :=
      fun q hq => hwf q (by simp [hq])
    obtain ⟨nid, node⟩ := p
    cases node with
    | obj kvs =>
      simp only [findModel, pyGetAttrD, bind, Except.bind, List.any_cons]
      by_cases hct : ((lookupStr kvs "class_type").getD Json.null).eqStr t =
          true
      · simp [hct, classTypeIs]
      · simp only [Bool.not_eq_true] at hct
        simp [hct, classTypeIs, ih hrest]
    | null => simp [WFNode] at hp
    | bool b => simp [WFNode] at hp
    | num n => simp [WFNode] at hp
    | str s => simp [WFNode] at hp
    | arr xs => simp [WFNode] at hp

/-- On a well-formed graph the slot search cannot raise and computes whether
some node matches the slot. -/
theorem findPromptNode_wf (pc : NodeTemplate) (g : List (String × Json))
    (hwf : ∀ p ∈ g, WFNode p.2 = true) :
    findPromptNode pc g = .ok (g.any fun p => slotMatches pc p.2) := by
  induction g with
  | nil => rfl
  | cons p rest ih =>
    have hp : WFNode p.2 = true := hwf p (by simp)
    have hrest : ∀ q ∈ rest, WFNode q.2 = true :=
      fun q hq => hwf q (by simp [hq])
    simp only [findPromptNode, bind, Except.bind, List.any_cons,
      promptNodeMatchesE_wf pc p.2 hp]
    by_cases hm : slotMatches pc p.2 = true
    · simp [hm]
    · simp only [Bool.not_eq_true] at hm
      simp [hm, ih hrest]

/-- On a well-formed graph the slot loop raises exactly for the first
unmatched slot. -/
theorem validatePrompts_char (g : List (String × Json))
    (hwf : ∀ p ∈ g, WFNode p.2 = true)
    (prompts : List (String × NodeTemplate)) :
    validatePrompts g prompts =
      match firstUnmatchedSlot g prompts with
      | none => .ok ()
      | some (name, pc) =>
        .error (.valueError (missingPromptMsg name pc.node_type)) := by
  induction prompts with
  | nil => rfl
  | cons q rest ih =>
    obtain ⟨name, pc⟩ := q
    simp only [validatePrompts, bind, Except.bind, firstUnmatchedSlot,
      findPromptNode_wf pc g hwf]
    by_cases hf : (g.any fun p => slotMatches pc p.2) = true
    · simp [hf, ih]
    · simp only [Bool.not_eq_true] at hf
      simp [hf]

/-- C7 amended: on a well-formed graph, validation fails with the
missing-model error exactly when no node has the model kind; otherwise it
fails with the missing-prompt error of the FIRST slot with no matching node
(match = kind plus, when a truthy match_meta is configured, substring of
meta title), and succeeds when every slot is matched. -/
theorem validate_characterization (cfg : WorkflowTemplateConfig)
    (g : List (String × Json)) (hwf : ∀ p ∈ g, WFNode p.2 = true) :
    _validate_workflow cfg g =
      if g.any (fun p => classTypeIs cfg.model.node_type p.2) then
        match firstUnmatchedSlot g cfg.prompts with
        | none => .ok ()
        | some (name, pc) =>
          .error (.valueError (missingPromptMsg name pc.node_type))
      else .error (.valueError (missingModelMsg cfg.model.node_type)) := by
  simp only [_validate_workflow, bind, Except.bind,
    findModel_wf cfg.model.node_type g hwf]
  by_cases hm : (g.any fun p => classTypeIs cfg.model.node_type p.2) = true
  · simp [hm, validatePrompts_char g hwf cfg.prompts]
  · simp only [Bool.not_eq_true] at hm
    simp [hm]

/-- Witness for C7 (amended): a graph with the model node present and the
single prompt slot matched validates successfully. -/
theorem validate_characterization_witness :
    _validate_workflow
      ⟨⟨"CheckpointLoaderSimple", ["inputs", "ckpt_name"], none⟩,
       [("positive", ⟨"CLIPTextEncode", ["inputs", "text"], none⟩)]⟩
      [("4", Json.obj [("class_type", Json.str "CheckpointLoaderSimple")]),
       ("6", Json.obj [("class_type", Json.str "CLIPTextEncode")])] =
      .ok () := by
  have h := validate_characterization
    ⟨⟨"CheckpointLoaderSimple", ["inputs", "ckpt_name"], none⟩,
     [("positive", ⟨"CLIPTextEncode", ["inputs", "text"], none⟩)]⟩
    [("4", Json.obj [("class_type", Json.str "CheckpointLoaderSimple")]),
     ("6", Json.obj [("class_type", Json.str "CLIPTextEncode")])]
    (by decide)
  simpa using h

/-- C7 counterexample: on the empty graph with model kind M and one prompt
slot of kind A, no node matches the prompt slot, yet validation fails with
the missing-model error, not the missing-prompt error the claim requires
exactly then. -/
theorem validate_order_counterexample :
    (([] : List (String × Json)).any fun p =>
      slotMatches ⟨"A", ["inputs", "text"], none⟩ p.2) = false ∧
    _validate_workflow
        ⟨⟨"M", ["inputs", "ckpt_name"], none⟩,
         [("positive", ⟨"A", ["inputs", "text"], none⟩)]⟩ [] =
      .error (.valueError (missingModelMsg "M")) ∧
    missingModelMsg "M" ≠ missingPromptMsg "positive" "A" :=
  ⟨rfl, rfl, by decide⟩

/-- The node produced by a successful `_set_node_value` (statement-side total
form; returns the node unchanged when `set` would raise). -/
def setOrSelf (node : Json) (path : List String) (v : Json) : Json :=
  match _set_node_value node path v with
  | .ok node' => node'
  | .error _ => node

/-- The inner loop of `update_prompts` rewrites EVERY matching node of a
well-formed, set-safe graph and leaves every non-matching node unchanged. -/
theorem updateNodesE_char (pc : NodeTemplate) (v : Json)
    (g : List (String × Json))
    (hwf : ∀ p ∈ g, WFNode p.2 = true)
    (hsafe : ∀ p ∈ g, slotMatches pc p.2 = true →
      pc.path ≠ [] ∧ setSafe pc.path p.2 = true) :
    updateNodesE pc v g =
      .ok (g.map fun p =>
        if slotMatches pc p.2 then (p.1, setOrSelf p.2 pc.path v) else p) := by
  induction g with
  | nil => rfl
  | cons p rest ih =>
    have hp : WFNode p.2 = true := hwf p (by simp)
    have hrest : ∀ q ∈ rest, WFNode q.2 = true :=
      fun q hq => hwf q (by simp [hq])
    have hsrest : ∀ q ∈ rest, slotMatches pc q.2 = true →
        pc.path ≠ [] ∧ setSafe pc.path q.2 = true :=
      fun q hq => hsafe q (by simp [hq])
    obtain ⟨nid, node⟩ := p
    simp only [updateNodesE, bind, Except.bind,
      promptNodeMatchesE_wf pc node hp, List.map_cons]
    by_cases hm : slotMatches pc node = true
    · obtain ⟨hne, hss⟩ := hsafe (nid, node) (by simp) hm
      obtain ⟨node', hset, _⟩ := set_then_get pc.path pc.path node v hne hss
      simp [hm, hset, ih hrest hsrest, pure, Except.pure, setOrSelf]
    · simp only [Bool.not_eq_true] at hm
      simp [hm, ih hrest hsrest, pure, Except.pure]

/-- C8 amended: for a slot present in the configuration, `update_prompts`
with that single slot writes the text at the slot path into EVERY node
matching the slot kind and match_meta criterion (not only the first), and
leaves every non-matching node unchanged; for a slot name absent from the
configuration it is a silent no-op. -/
theorem update_prompts_characterization :
    (∀ (cfg : WorkflowTemplateConfig) (g : List (String × Json))
        (name : String) (pc : NodeTemplate) (text : String),
      lookupStr cfg.prompts name = some pc →
      (∀ p ∈ g, WFNode p.2 = true) →
      (∀ p ∈ g, slotMatches pc p.2 = true →
        pc.path ≠ [] ∧ setSafe pc.path p.2 = true) →
      update_prompts cfg g [(name, text)] =
        .ok (g.map fun p =>
          if slotMatches pc p.2 then
            (p.1, setOrSelf p.2 pc.path (.str text))
          else p)) ∧
    (∀ (cfg : WorkflowTemplateConfig) (g : List (String × Json))
        (name text : String),
      lookupStr cfg.prompts name = none →
      update_prompts cfg g [(name, text)] = .ok g) := by
  constructor
  · intro cfg g name pc text hname hwf hsafe
    simp [update_prompts, hname, bind, Except.bind,
      updateNodesE_char pc (.str text) g hwf hsafe]
  · intro cfg g name text hname
    simp [update_prompts, hname]

/-- Witness for C8 (amended): one matching and one non-matching node. -/
theorem update_prompts_characterization_witness :
    update_prompts
      ⟨⟨"M", ["inputs", "ckpt_name"], none⟩,
       [("positive", ⟨"CLIPTextEncode", ["inputs", "text"], none⟩)]⟩
      [("4", Json.obj [("class_type", Json.str "KSampler")]),
       ("6", Json.obj [("class_type", Json.str "CLIPTextEncode"),
          ("inputs", Json.obj [("text", Json.str "old")])])]
      [("positive", "new")] =
      .ok [("4", Json.obj [("class_type", Json.str "KSampler")]),
           ("6", Json.obj [("class_type", Json.str "CLIPTextEncode"),
              ("inputs", Json.obj [("text", Json.str "new")])])] := by
  have h := update_prompts_characterization.1
    ⟨⟨"M", ["inputs", "ckpt_name"], none⟩,
     [("positive", ⟨"CLIPTextEncode", ["inputs", "text"], none⟩)]⟩
    [("4", Json.obj [("class_type", Json.str "KSampler")]),
     ("6", Json.obj [("class_type", Json.str "CLIPTextEncode"),
        ("inputs", Json.obj [("text", Json.str "old")])])]
    "positive" ⟨"CLIPTextEncode", ["inputs", "text"], none⟩ "new"
    rfl (by decide) (by decide)
  simpa using h

/-- C8 counterexample: with two nodes matching the slot, `update_prompts`
writes both (the inner loop has no break), so the second matching node does
not keep its old value as the claim requires. -/
theorem update_writes_all_matches_counterexample :
    update_prompts
      ⟨⟨"M", ["inputs", "ckpt_name"], none⟩,
       [("positive", ⟨"CLIPTextEncode", ["inputs", "text"], none⟩)]⟩
      [("6", Json.obj [("class_type", Json.str "CLIPTextEncode"),
          ("inputs", Json.obj [("text", Json.str "old1")])]),
       ("7", Json.obj [("class_type", Json.str "CLIPTextEncode"),
          ("inputs", Json.obj [("text", Json.str "old2")])])]
      [("positive", "new")] =
      .ok [("6", Json.obj [("class_type", Json.str "CLIPTextEncode"),
              ("inputs", Json.obj [("text", Json.str "new")])]),
           ("7", Json.obj [("class_type", Json.str "CLIPTextEncode"),
              ("inputs", Json.obj [("text", Json.str "new")])])] ∧
    (Json.obj [("class_type", Json.str "CLIPTextEncode"),
        ("inputs", Json.obj [("text", Json.str "new")])] ≠
      Json.obj [("class_type", Json.str "CLIPTextEncode"),
        ("inputs", Json.obj [("text", Json.str "old2")])]) :=
  ⟨rfl, by simp⟩

/-! ## TemplateEngine rendering (C4)

The Jinja-based rendering engine the spec describes is invoked from
`workflow_json.py` (`self.template.render(context)`), but the class
implementing `render` — the template file loading, the placeholder
substitution with JSON escaping — is not part of the sources; only its
caller is.  The escaping/substitution/parsing pipeline is therefore
modelled from the spec below. -/

/-- Value of a hex digit character (by code point: digits, then the
lower-case and upper-case letter ranges). -/
def nibble (c : Char) : Option Nat :=
  let n := c.toNat
  if 48 ≤ n ∧ n ≤ 57 then some (n - 48)
  else if 97 ≤ n ∧ n ≤ 102 then some (n - 87)
  else if 65 ≤ n ∧ n ≤ 70 then some (n - 55)
  else none

/-- Lower-case hex digit character of a value below 16. -/
def nibbleChar (n : Nat) : Char :=
  Char.ofNat (if n < 10 then 48 + n else 87 + n)

/-- Decoded form of a one-character string escape. -/
def escDecode : Char → Option Char
  | '/' => some '/'
  | 'n' => some '\n'
  | 't' => some '\t'
  | 'r' => some '\r'
  | 'b' => some '\x08'
  | 'f' => some '\x0c'
  | '"' => some '"'
  | '\\' => some '\\'
  | _ => none

/-- JSON string-literal body: the characters up to the closing quote,
decoding backslash escapes (including `\uXXXX`). -/
def strBody : List Char → Option (List Char × List Char)
  | [] => none
  | c :: cs =>
    if c = '"' then some ([], cs)
    else if c ≠ '\\' then (strBody cs).map fun p => (c :: p.1, p.2)
    else
      match cs with
      | 'u' :: h1 :: h2 :: h3 :: h4 :: tl => do
        let a ← nibble h1
        let b ← nibble h2
        let c2 ← nibble h3
        let d ← nibble h4
        let p ← strBody tl
        pure (Char.ofNat (4096 * a + 256 * b + 16 * c2 + d) :: p.1, p.2)
      | e :: tl =>
        (escDecode e).bind fun ch => (strBody tl).map fun p => (ch :: p.1, p.2)
      | [] => none

/-- Drop JSON whitespace. -/
def wsDropped (cs : List Char) : List Char :=
  cs.dropWhile fun c => c == ' ' || c == '\n' || c == '\t' || c == '\r'

/-- Split off the leading decimal digits. -/
def digitSpan (cs : List Char) : List Char × List Char :=
  cs.span Char.isDigit

/-- Numeric value of a digit list. -/
def natFromDigits (ds : List Char) : Nat :=
  ds.foldl (fun acc c => 10 * acc + (c.toNat - 48)) 0

mutual

/-- Recursive-descent JSON value parse (fuel-indexed; models the document
parse the engine performs after substitution; integral numbers only, matching
the `Json.num` embedding). -/
def readValue : Nat → List Char → Option (Json × List Char)
  | 0, _ => none
  | fuel + 1, cs =>
    match wsDropped cs with
    | [] => none
    | c :: rest =>
      if c = '"' then
        (strBody rest).map fun p => (.str (String.mk p.1), p.2)
      else if c = '\x7b' then
        match wsDropped rest with
        | '\x7d' :: r => some (.obj [], r)
        | _ => (readObjectTail fuel rest).map fun p => (.obj p.1, p.2)
      else if c = '[' then
        match wsDropped rest with
        | ']' :: r => some (.arr [], r)
        | _ => (readArrayTail fuel rest).map fun p => (.arr p.1, p.2)
      else if c = 't' then
        match rest with
        | 'r' :: 'u' :: 'e' :: r => some (.bool true, r)
        | _ => none
      else if c = 'f' then
        match rest with
        | 'a' :: 'l' :: 's' :: 'e' :: r => some (.bool false, r)
        | _ => none
      else if c = 'n' then
        match rest with
        | 'u' :: 'l' :: 'l' :: r => some (.null, r)
        | _ => none
      else if c = '-' then
        match digitSpan rest with
        | ([], _) => none
        | (ds, r) => some (.num (-(natFromDigits ds : Int)), r)
      else if c.isDigit then
        match digitSpan (c :: rest) with
        | ([], _) => none
        | (ds, r) => some (.num (natFromDigits ds : Int), r)
      else none

/-- The members of a JSON object after its opening brace. -/
def readObjectTail : Nat → List Char → Option (List (String × Json) × List Char)
  | 0, _ => none
  | fuel + 1, cs =>
    match wsDropped cs with
    | '"' :: rest =>
      (strBody rest).bind fun kp =>
        match wsDropped kp.2 with
        | ':' :: afterColon =>
          (readValue fuel afterColon).bind fun vp =>
            match wsDropped vp.2 with
            | ',' :: more =>
              (readObjectTail fuel more).map fun rp =>
                ((String.mk kp.1, vp.1) :: rp.1, rp.2)
            | '\x7d' :: more => some ([(String.mk kp.1, vp.1)], more)
            | _ => none
        | _ => none
    | _ => none

/-- The elements of a JSON array after its opening bracket. -/
def readArrayTail : Nat → List Char → Option (List Json × List Char)
  | 0, _ => none
  | fuel + 1, cs =>
    (readValue fuel cs).bind fun vp =>
      match wsDropped vp.2 with
      | ',' :: more =>
        (readArrayTail fuel more).map fun rp => (vp.1 :: rp.1, rp.2)
      | ']' :: more => some ([vp.1], more)
      | _ => none

end

/-- Embeds `json.loads`: parse a whole document, requiring only trailing
whitespace. -/
def json_loads (s : String) : Option Json :=
  (readValue 100 s.toList).bind fun p =>
    if wsDropped p.2 = [] then some p.1 else none

/-- Modelled from the spec: the escaping the engine applies to a character of
a string substituted into a text position — the quoting rules a JSON
serializer applies inside a string literal (quotes and backslashes escaped,
control characters via short escapes or `\u00XX`). -/
def escapeChar (c : Char) : List Char :=
  if c = '"' then ['\\', '"']
  else if c = '\\' then ['\\', '\\']
  else if c = '\n' then ['\\', 'n']
  else if c = '\t' then ['\\', 't']
  else if c = '\r' then ['\\', 'r']
  else if c = '\x08' then ['\\', 'b']
  else if c = '\x0c' then ['\\', 'f']
  else if c.toNat < 32 then
    ['\\', 'u', '0', '0', nibbleChar (c.toNat / 16), nibbleChar (c.toNat % 16)]
  else [c]

/-- Modelled from the spec: serializer-style string escaping with the
enclosing quotes stripped (the template supplies the quotes around the
placeholder). -/
def jsonEscape (s : String) : String :=
  String.mk (s.toList.map escapeChar).flatten

/-- Modelled from the spec: the template text around the positive-prompt
placeholder — a workflow document whose prompt node holds the placeholder
inside a quoted text position (the missing template file and Jinja
substitution machinery, reduced to the one placeholder the claim concerns). -/
def tmplHead : String :=
  "\x7b\"6\": \x7b\"class_type\": \"CLIPTextEncode\", \"inputs\": \x7b\"text\": \""

/-- Modelled from the spec: the template text after the placeholder. -/
def tmplTail : String := "\"\x7d\x7d\x7d"

/-- Modelled from the spec: `render` for the positive-prompt context value:
escape the value, substitute it between the template quotes. -/
def renderPositive (positive : String) : String :=
  tmplHead ++ jsonEscape positive ++ tmplTail

/-- The prompt literal of the claim: `a cat, "striped"`. -/
def catPrompt : String := "a cat, \"striped\""

/-- C4: rendering with the positive prompt `a cat, "striped"` (embedded
double quotes) yields a document that parses to a graph whose prompt node
text is exactly that literal — the escaping round-trips through parsing. -/
theorem render_escaping_roundtrip :
    json_loads (renderPositive catPrompt) =
      some (Json.obj [("6",
        Json.obj [("class_type", Json.str "CLIPTextEncode"),
                  ("inputs", Json.obj [("text", Json.str catPrompt)])])]) ∧
    (json_loads (renderPositive catPrompt)).bind (fun g =>
        ((g.getKey? "6").bind fun n =>
          (n.getKey? "inputs").bind fun i => i.getKey? "text")) =
      some (Json.str catPrompt) := by
  constructor <;> rfl
